import Mathlib

/-!
Shallow embedding of the trading environment in
`src/environment/trading_env.py` (class `TradingEnvironment`).

Modelling conventions:
* Python floats are modelled as rationals (`ℚ`); the claims under study are
  exact algebraic identities of the code, not statements about IEEE rounding.
* Candle data is a `List Candle`; `data.iloc[i]` becomes `List.getD` (the
  claims proved over the total model only concern in-bounds indices or are
  invariants that hold for arbitrary values of the looked-up prices).
* The observation builder is embedded twice.  `getObservation` restricts the
  non-initial rows to the domain where the emitted `ln(...)` values are
  mathematically defined (`rowOk`), returning `none` outside it; it is used
  to state which log-return values each channel carries.  `getObservationNp`
  is the faithful numpy semantics: `np.log`/float division of out-of-domain
  `float64` values emit RuntimeWarnings and yield nan/inf while the array
  still builds, so its only failure mode is the IndexError on a window
  shorter than `window_size`; the particular nan/inf entry values are
  floating-point artifacts no claim depends on, and are represented by
  Lean's total `Real.log` and field division.
* Actions are integers; `step` coerces anything outside `{0, 1, 2}` to `0`
  (HOLD), exactly as the Python `action_space.contains` guard does.
-/

/-- One OHLCV candle (a row of the input dataframe).  `open` is a Lean
keyword, hence the field name `open_`. -/
structure Candle where
  open_ : ℚ
  high : ℚ
  low : ℚ
  close : ℚ
  volume : ℚ
  deriving DecidableEq, Repr, Inhabited

/-- A trade record, as appended by `_close_position` to `trade_history`. -/
structure Trade where
  entry_price : ℚ
  exit_price : ℚ
  position : ℚ
  pnl : ℚ
  step : ℕ
  deriving DecidableEq, Repr

/-- The construction parameters of `TradingEnvironment.__init__` together
with the immutable candle series. -/
structure EnvParams where
  data : List Candle
  window_size : ℕ
  commission_rate : ℚ
  slippage_rate : ℚ
  initial_balance : ℚ
  max_position_size : ℚ
  deriving DecidableEq, Repr

/-- The mutable state of a `TradingEnvironment` instance. -/
structure EnvState where
  current_step : ℕ
  balance : ℚ
  position : ℚ
  entry_price : ℚ
  total_pnl : ℚ
  trades_count : ℕ
  trade_history : List Trade
  pnl_history : List ℚ
  deriving DecidableEq, Repr

/-- `self.max_steps = len(data) - window_size - 1` (truncated at 0, which
coincides with the Python comparison `current_step >= max_steps` whenever the
Python value would be negative). -/
def maxSteps (p : EnvParams) : ℕ :=
  p.data.length - p.window_size - 1

/-- `self.data.iloc[i]['close']`. -/
def closeAt (p : EnvParams) (i : ℕ) : ℚ :=
  (p.data.getD i default).close

/-- The state installed by `reset()` (and by `__init__`, which sets the same
trading fields). -/
def resetState (p : EnvParams) : EnvState :=
  { current_step := p.window_size
    balance := p.initial_balance
    position := 0
    entry_price := 0
    total_pnl := 0
    trades_count := 0
    trade_history := []
    pnl_history := [] }

/-- `TradingEnvironment.__init__`: stores the parameters and the initial
trading state.  The Python constructor performs no validation whatsoever, so
the embedding always succeeds; it is `Option`-valued only so that the
specification's claimed construction-time failures are expressible. -/
def initEnv (data : List Candle) (window_size : ℕ) (commission_rate : ℚ)
    (slippage_rate : ℚ) (initial_balance : ℚ) (max_position_size : ℚ) :
    Option (EnvParams × EnvState) :=
  let p : EnvParams :=
    { data := data
      window_size := window_size
      commission_rate := commission_rate
      slippage_rate := slippage_rate
      initial_balance := initial_balance
      max_position_size := max_position_size }
  some (p, resetState p)

/-- The PnL realized by `_close_position(price)` (source lines 202-205):
`(price - entry)/entry * |position|` for a long position,
`(entry - price)/entry * |position|` otherwise. -/
def realizedPnl (price : ℚ) (s : EnvState) : ℚ :=
  if s.position > 0 then
    (price - s.entry_price) / s.entry_price * |s.position|
  else
    (s.entry_price - price) / s.entry_price * |s.position|

/-- The trade record appended by `_close_position(price)`. -/
def closeRecord (price : ℚ) (s : EnvState) : Trade :=
  { entry_price := s.entry_price
    exit_price := price
    position := s.position
    pnl := realizedPnl price s
    step := s.current_step }

/-- `_close_position(price)`: realize the PnL of the open position (if any),
credit it to `balance` and `total_pnl`, append one trade record, and zero out
`position` and `entry_price`. -/
def closePosition (price : ℚ) (s : EnvState) : EnvState :=
  if s.position ≠ 0 then
    { s with
      total_pnl := s.total_pnl + realizedPnl price s
      balance := s.balance + realizedPnl price s
      trade_history := s.trade_history ++ [closeRecord price s]
      position := 0
      entry_price := 0 }
  else s

/-- `_execute_action(action)`: HOLD is a no-op; BUY closes a short (if any)
and opens a long up to the cap; SELL closes a long (if any) and opens a short
up to the cap.  Note that `new_position` is computed from `self.position`
AFTER the embedded close, exactly as in the source. -/
def executeAction (p : EnvParams) (action : ℤ) (s : EnvState) : EnvState :=
  let current_price := closeAt p s.current_step
  if action = 0 then s
  else if action = 1 then
    if s.position < p.max_position_size then
      let s1 := if s.position < 0 then closePosition current_price s else s
      let new_position := min p.max_position_size (p.max_position_size - s1.position)
      { s1 with
        position := s1.position + new_position
        entry_price := current_price
        trades_count := s1.trades_count + 1 }
    else s
  else if action = 2 then
    if s.position > -p.max_position_size then
      let s1 := if s.position > 0 then closePosition current_price s else s
      let new_position := min p.max_position_size (p.max_position_size + s1.position)
      { s1 with
        position := s1.position - new_position
        entry_price := current_price
        trades_count := s1.trades_count + 1 }
    else s
  else s

/-- `_calculate_reward(action)`: returns 0 when `current_step >= len(data)-1`;
otherwise the one-step forward return of the current position net of
commission and slippage, minus a `0.0001` activity penalty for non-HOLD
actions. -/
def calculateReward (p : EnvParams) (action : ℤ) (s : EnvState) : ℚ :=
  if p.data.length - 1 ≤ s.current_step then 0
  else
    let current_price := closeAt p s.current_step
    let next_price := closeAt p (s.current_step + 1)
    let base : ℚ :=
      if s.position ≠ 0 then
        (if s.position > 0 then (next_price - current_price) / current_price
         else (current_price - next_price) / current_price) * |s.position|
          - |s.position| * p.commission_rate
          - |s.position| * p.slippage_rate
      else 0
    if action ≠ 0 then base - 1 / 10000 else base

/-- The action actually executed by `step`: out-of-range actions are coerced
to HOLD (`action_space.contains` check). -/
def sanitizeAction (action : ℤ) : ℤ :=
  if 0 ≤ action ∧ action < 3 then action else 0

/-- `step(action)` restricted to its state/reward/done components: sanitize
the action, execute it, compute the reward, advance the cursor, test
termination, and append `total_pnl` to `pnl_history`. -/
def stepEnv (p : EnvParams) (action : ℤ) (s : EnvState) : EnvState × ℚ × Bool :=
  let a := sanitizeAction action
  let s1 := executeAction p a s
  let reward := calculateReward p a s1
  let s2 := { s1 with current_step := s1.current_step + 1 }
  let done := decide (maxSteps p ≤ s2.current_step)
  let s3 := { s2 with pnl_history := s2.pnl_history ++ [s2.total_pnl] }
  (s3, reward, done)

/-- Run a whole sequence of `step` calls from a state. -/
def runSteps (p : EnvParams) (acts : List ℤ) (s : EnvState) : EnvState :=
  acts.foldl (fun st a => (stepEnv p a st).1) s

/-- The sliding window `data.iloc[current_step - window_size : current_step]`
used by `_get_observation`. -/
def window (p : EnvParams) (s : EnvState) : List Candle :=
  (p.data.drop (s.current_step - p.window_size)).take p.window_size

/-- Domain condition of one non-initial candle of the window: all three
`np.log` arguments must be strictly positive and the volume denominator
nonzero. -/
def rowOk (prev curr : Candle) : Prop :=
  0 < curr.close / prev.close ∧ 0 < curr.high / prev.close ∧
    0 < curr.low / prev.close ∧ prev.volume ≠ 0

instance (prev curr : Candle) : Decidable (rowOk prev curr) := by
  unfold rowOk; infer_instance

/-- The five feature values emitted for a non-initial candle `curr` whose
predecessor in the window is `prev` (source lines 115-121): log-return of the
close for the open channel, `log(high/prev_close)` and `log(low/prev_close)`
for the high and low channels, the close log-return again for the close
channel, and the relative volume change. -/
noncomputable def rowVals (prev curr : Candle) : List ℝ :=
  [Real.log ((curr.close : ℝ) / (prev.close : ℝ)),
   Real.log ((curr.high : ℝ) / (prev.close : ℝ)),
   Real.log ((curr.low : ℝ) / (prev.close : ℝ)),
   Real.log ((curr.close : ℝ) / (prev.close : ℝ)),
   (((curr.volume - prev.volume) / prev.volume : ℚ) : ℝ)]

/-- The feature rows of the window tail, failing on the first domain error. -/
noncomputable def obsRows : Candle → List Candle → Option (List ℝ)
  | _, [] => some []
  | prev, curr :: rest =>
    if rowOk prev curr then
      (obsRows curr rest).map (fun tail => rowVals prev curr ++ tail)
    else none

/-- The raw OHLCV values emitted for the first candle of the window. -/
def rawHead (c : Candle) : List ℝ :=
  [(c.open_ : ℝ), (c.high : ℝ), (c.low : ℝ), (c.close : ℝ), (c.volume : ℝ)]

/-- `_get_observation()`, scoped to the domain where the emitted log-return
values are defined: the raw first candle, the log-return rows of the
remaining `window_size - 1` candles, then `position` and
`balance / initial_balance`.  Returns `none` when the window is shorter than
`window_size` (out-of-range `iloc` access in the source) or when a row's
log/division argument leaves its mathematical domain (where numpy itself
would build the array with nan/inf entries — see `getObservationNp`). -/
noncomputable def getObservation (p : EnvParams) (s : EnvState) : Option (List ℝ) :=
  if (window p s).length < p.window_size then none
  else
    match window p s with
    | [] => some [(s.position : ℝ), ((s.balance / p.initial_balance : ℚ) : ℝ)]
    | c0 :: rest =>
      (obsRows c0 rest).map (fun rows =>
        rawHead c0 ++ rows ++ [(s.position : ℝ), ((s.balance / p.initial_balance : ℚ) : ℝ)])

/-- The feature rows of the window tail under numpy semantics: `np.log`
and float division of out-of-domain `float64` values only emit
RuntimeWarnings and yield nan/inf, the array still builds, so row
construction is total.  The out-of-domain entry values are represented by
Lean's total `Real.log` and field division; no claim depends on them. -/
noncomputable def obsRowsTotal : Candle → List Candle → List ℝ
  | _, [] => []
  | prev, curr :: rest => rowVals prev curr ++ obsRowsTotal curr rest

/-- `_get_observation()` under the faithful numpy failure semantics: the only
failure mode of the source is the IndexError raised when the slice
`data.iloc[current_step - window_size : current_step]` is shorter than
`window_size`; value-domain problems never abort the build. -/
noncomputable def getObservationNp (p : EnvParams) (s : EnvState) : Option (List ℝ) :=
  if (window p s).length < p.window_size then none
  else
    match window p s with
    | [] => some [(s.position : ℝ), ((s.balance / p.initial_balance : ℚ) : ℝ)]
    | c0 :: rest =>
      some (rawHead c0 ++ obsRowsTotal c0 rest ++
        [(s.position : ℝ), ((s.balance / p.initial_balance : ℚ) : ℝ)])

/-! Concrete fixtures used by witnesses and counterexamples. -/

/-- A flat candle at price `c` with volume 1. -/
def mkCandle (c : ℚ) : Candle :=
  { open_ := c, high := c, low := c, close := c, volume := 1 }

/-- Fixture: four candles, window 1, zero commission and slippage. -/
def pW : EnvParams :=
  { data := [mkCandle 1, mkCandle 2, mkCandle 3, mkCandle 4]
    window_size := 1
    commission_rate := 0
    slippage_rate := 0
    initial_balance := 10000
    max_position_size := 1 / 10 }

/-- Fixture for the C1 witness: an open long position of size `1/10` entered
at price 100. -/
def stC1 : EnvState :=
  { current_step := 5, balance := 1000, position := 1 / 10, entry_price := 100
    total_pnl := 0, trades_count := 1, trade_history := [], pnl_history := [] }

/-- Fixture for the C2 counterexample: closes `[100, 100, 200, 100]`, window
size 1, so `max_steps = 2` and the last valid step index is 1 — the cursor the
first `step` call runs at. -/
def pC2 : EnvParams :=
  { data := [mkCandle 100, mkCandle 100, mkCandle 200, mkCandle 100]
    window_size := 1
    commission_rate := 0
    slippage_rate := 0
    initial_balance := 10000
    max_position_size := 1 / 10 }

/-- Fixture candle whose high differs from its close. -/
def c31 : Candle :=
  { open_ := 1, high := 2, low := 1, close := 1, volume := 1 }

/-- Fixture for C3: a two-candle window `[mkCandle 1, c31]`. -/
def p3c : EnvParams :=
  { data := [mkCandle 1, c31]
    window_size := 2
    commission_rate := 0
    slippage_rate := 0
    initial_balance := 10000
    max_position_size := 1 / 10 }

/-- The observation vector produced on the C3 fixture: the high channel of
candle 1 carries `log 2` while its close channel carries `log 1 = 0`. -/
noncomputable def obsList3 : List ℝ :=
  [1, 1, 1, 1, 1, 0, Real.log 2, 0, 0, 0, 0, 1]

/-- Fixture candle with zero volume. -/
def c81 : Candle :=
  { open_ := 1, high := 1, low := 1, close := 1, volume := 0 }

/-- Fixture for the C8 counterexample: the last candle of the window has
volume 0, yet the observation builds fine because that volume is never used
as a denominator or log argument. -/
def p8c : EnvParams :=
  { data := [mkCandle 1, c81]
    window_size := 2
    commission_rate := 0
    slippage_rate := 0
    initial_balance := 10000
    max_position_size := 1 / 10 }

/-- Fixture for the C8 witness: an all-positive two-candle window. -/
def p8w : EnvParams :=
  { data := [mkCandle 1, mkCandle 2]
    window_size := 2
    commission_rate := 0
    slippage_rate := 0
    initial_balance := 10000
    max_position_size := 1 / 10 }

/-- The observation vector produced on the C8 witness fixture `p8w`. -/
noncomputable def obsList8w : List ℝ :=
  [1, 1, 1, 1, 1, Real.log 2, Real.log 2, Real.log 2, Real.log 2, 0, 0, 1]

/-- Invariant relating `position` and `entry_price`: the environment is flat
with a cleared entry price, or holds a full-cap long or short (which requires
a nonzero cap). -/
def PosOk (p : EnvParams) (s : EnvState) : Prop :=
  (s.position = 0 ∧ s.entry_price = 0) ∨
    ((s.position = p.max_position_size ∨ s.position = -p.max_position_size) ∧
      p.max_position_size ≠ 0)

/-- Ledger invariant: the balance is the initial balance plus the cumulative
realized PnL, which is itself the sum of the PnLs of the recorded trades. -/
def LedgerOk (p : EnvParams) (s : EnvState) : Prop :=
  s.balance = p.initial_balance + s.total_pnl ∧
    s.total_pnl = (s.trade_history.map Trade.pnl).sum

/-! Helper lemmas about `_close_position` and `_execute_action`. -/

theorem closePosition_of_ne (price : ℚ) (s : EnvState) (h : s.position ≠ 0) :
    closePosition price s =
      { s with
        total_pnl := s.total_pnl + realizedPnl price s
        balance := s.balance + realizedPnl price s
        trade_history := s.trade_history ++ [closeRecord price s]
        position := 0
        entry_price := 0 } := by
  unfold closePosition
  rw [if_pos h]

theorem closePosition_of_eq (price : ℚ) (s : EnvState) (h : s.position = 0) :
    closePosition price s = s := by
  unfold closePosition
  rw [if_neg (by simp [h])]

theorem closePosition_current_step (price : ℚ) (s : EnvState) :
    (closePosition price s).current_step = s.current_step := by
  unfold closePosition
  split <;> rfl

theorem closePosition_position_of_ne (price : ℚ) (s : EnvState)
    (h : s.position ≠ 0) : (closePosition price s).position = 0 := by
  rw [closePosition_of_ne price s h]

theorem executeAction_hold (p : EnvParams) (s : EnvState) :
    executeAction p 0 s = s := by
  unfold executeAction
  norm_num

theorem executeAction_buy_fill (p : EnvParams) (s : EnvState)
    (h : s.position < p.max_position_size) :
    (executeAction p 1 s).position = p.max_position_size := by
  unfold executeAction
  norm_num [h]
  by_cases hneg : s.position < 0
  · rw [if_pos hneg, closePosition_position_of_ne _ _ (ne_of_lt hneg)]
    simp
  · rw [if_neg hneg]
    have hge : (0 : ℚ) ≤ s.position := not_lt.mp hneg
    rw [min_eq_right (by linarith)]
    ring

theorem executeAction_buy_noop (p : EnvParams) (s : EnvState)
    (h : ¬ s.position < p.max_position_size) :
    executeAction p 1 s = s := by
  unfold executeAction
  norm_num [h]

theorem executeAction_sell_fill (p : EnvParams) (s : EnvState)
    (h : -p.max_position_size < s.position) :
    (executeAction p 2 s).position = -p.max_position_size := by
  unfold executeAction
  norm_num [h]
  by_cases hpos : 0 < s.position
  · rw [if_pos hpos, closePosition_position_of_ne _ _ (ne_of_gt hpos)]
    simp
  · rw [if_neg hpos]
    have hle : s.position ≤ 0 := not_lt.mp hpos
    rw [min_eq_right (by linarith)]
    ring

theorem executeAction_sell_noop (p : EnvParams) (s : EnvState)
    (h : ¬ -p.max_position_size < s.position) :
    executeAction p 2 s = s := by
  unfold executeAction
  norm_num
  intro h2
  exact absurd h2 h

theorem closePosition_eq_of_history (price : ℚ) (s : EnvState)
    (h : (closePosition price s).trade_history = s.trade_history) :
    closePosition price s = s := by
  by_cases hp : s.position = 0
  · exact closePosition_of_eq price s hp
  · exfalso
    rw [closePosition_of_ne price s hp] at h
    have := congrArg List.length h
    simp at this

theorem sanitizeAction_cases (a : ℤ) :
    sanitizeAction a = 0 ∨ sanitizeAction a = 1 ∨ sanitizeAction a = 2 := by
  unfold sanitizeAction
  split_ifs with h
  · omega
  · exact Or.inl rfl

theorem executeAction_cases (p : EnvParams) (a : ℤ) (s : EnvState) :
    executeAction p a s = s ∨
    ∃ s1 q, (s1 = s ∨ s1 = closePosition (closeAt p s.current_step) s) ∧
      executeAction p a s =
        { s1 with position := q, entry_price := closeAt p s.current_step,
                  trades_count := s1.trades_count + 1 } := by
  unfold executeAction
  by_cases h0 : a = 0
  · simp [h0]
  rw [if_neg h0]
  by_cases h1 : a = 1
  · rw [if_pos h1]
    by_cases hlt : s.position < p.max_position_size
    · rw [if_pos hlt]
      by_cases hneg : s.position < 0
      · rw [if_pos hneg]
        exact Or.inr ⟨_, _, Or.inr rfl, rfl⟩
      · rw [if_neg hneg]
        exact Or.inr ⟨_, _, Or.inl rfl, rfl⟩
    · rw [if_neg hlt]
      exact Or.inl rfl
  rw [if_neg h1]
  by_cases h2 : a = 2
  · rw [if_pos h2]
    by_cases hgt : s.position > -p.max_position_size
    · rw [if_pos hgt]
      by_cases hpos : s.position > 0
      · rw [if_pos hpos]
        exact Or.inr ⟨_, _, Or.inr rfl, rfl⟩
      · rw [if_neg hpos]
        exact Or.inr ⟨_, _, Or.inl rfl, rfl⟩
    · rw [if_neg hgt]
      exact Or.inl rfl
  rw [if_neg h2]
  exact Or.inl rfl

theorem stepEnv_fst (p : EnvParams) (a : ℤ) (s : EnvState) :
    (stepEnv p a s).1 =
      { executeAction p (sanitizeAction a) s with
        current_step := (executeAction p (sanitizeAction a) s).current_step + 1
        pnl_history := (executeAction p (sanitizeAction a) s).pnl_history ++
          [(executeAction p (sanitizeAction a) s).total_pnl] } := rfl

theorem runSteps_nil (p : EnvParams) (s : EnvState) : runSteps p [] s = s := rfl

theorem runSteps_cons (p : EnvParams) (a : ℤ) (acts : List ℤ) (s : EnvState) :
    runSteps p (a :: acts) s = runSteps p acts (stepEnv p a s).1 := rfl

theorem executeAction_balance_of_history (p : EnvParams) (a : ℤ) (s : EnvState)
    (h : (executeAction p a s).trade_history = s.trade_history) :
    (executeAction p a s).balance = s.balance := by
  rcases executeAction_cases p a s with he | ⟨s1, q, hs1, he⟩
  · rw [he]
  · rw [he] at h ⊢
    simp only at h ⊢
    rcases hs1 with rfl | rfl
    · rfl
    · rw [closePosition_eq_of_history _ _ h]

theorem ledgerOk_reset (p : EnvParams) : LedgerOk p (resetState p) := by
  simp [LedgerOk, resetState]

theorem ledgerOk_closePosition (p : EnvParams) (price : ℚ) (s : EnvState)
    (h : LedgerOk p s) : LedgerOk p (closePosition price s) := by
  by_cases hp : s.position = 0
  · rw [closePosition_of_eq price s hp]
    exact h
  · rw [closePosition_of_ne price s hp]
    obtain ⟨h1, h2⟩ := h
    refine ⟨by simp [h1]; ring, ?_⟩
    simp [closeRecord, h2]

theorem ledgerOk_executeAction (p : EnvParams) (a : ℤ) (s : EnvState)
    (h : LedgerOk p s) : LedgerOk p (executeAction p a s) := by
  rcases executeAction_cases p a s with he | ⟨s1, q, hs1, he⟩
  · rw [he]; exact h
  · rw [he]
    have hs1ok : LedgerOk p s1 := by
      rcases hs1 with rfl | rfl
      · exact h
      · exact ledgerOk_closePosition p _ s h
    exact hs1ok

theorem ledgerOk_step (p : EnvParams) (a : ℤ) (s : EnvState)
    (h : LedgerOk p s) : LedgerOk p (stepEnv p a s).1 := by
  rw [stepEnv_fst]
  exact ledgerOk_executeAction p _ s h

theorem ledgerOk_runSteps (p : EnvParams) (acts : List ℤ) (s : EnvState)
    (h : LedgerOk p s) : LedgerOk p (runSteps p acts s) := by
  induction acts generalizing s with
  | nil => exact h
  | cons a acts ih =>
    rw [runSteps_cons]
    exact ih _ (ledgerOk_step p a s h)

theorem posOk_reset (p : EnvParams) : PosOk p (resetState p) := by
  simp [PosOk, resetState]

theorem posOk_executeAction (p : EnvParams) (b : ℤ) (s : EnvState)
    (hb : b = 0 ∨ b = 1 ∨ b = 2) (h : PosOk p s) :
    PosOk p (executeAction p b s) := by
  rcases hb with rfl | rfl | rfl
  · rw [executeAction_hold]; exact h
  · by_cases hlt : s.position < p.max_position_size
    · have hfill := executeAction_buy_fill p s hlt
      have hmax : p.max_position_size ≠ 0 := by
        rcases h with ⟨h1, _⟩ | ⟨_, hne⟩
        · intro h0
          rw [h1, h0] at hlt
          exact lt_irrefl 0 hlt
        · exact hne
      exact Or.inr ⟨Or.inl hfill, hmax⟩
    · rw [executeAction_buy_noop p s hlt]; exact h
  · by_cases hgt : -p.max_position_size < s.position
    · have hfill := executeAction_sell_fill p s hgt
      have hmax : p.max_position_size ≠ 0 := by
        rcases h with ⟨h1, _⟩ | ⟨_, hne⟩
        · intro h0
          rw [h1, h0] at hgt
          simp at hgt
        · exact hne
      exact Or.inr ⟨Or.inr hfill, hmax⟩
    · rw [executeAction_sell_noop p s hgt]; exact h

theorem posOk_step (p : EnvParams) (a : ℤ) (s : EnvState)
    (h : PosOk p s) : PosOk p (stepEnv p a s).1 := by
  rw [stepEnv_fst]
  exact posOk_executeAction p _ s (sanitizeAction_cases a) h

theorem posOk_runSteps (p : EnvParams) (acts : List ℤ) (s : EnvState)
    (h : PosOk p s) : PosOk p (runSteps p acts s) := by
  induction acts generalizing s with
  | nil => exact h
  | cons a acts ih =>
    rw [runSteps_cons]
    exact ih _ (posOk_step p a s h)

theorem stepEnv_hold_fields (p : EnvParams) (s : EnvState) :
    (stepEnv p 0 s).1.balance = s.balance ∧
    (stepEnv p 0 s).1.trades_count = s.trades_count := by
  rw [stepEnv_fst]
  have hs : sanitizeAction 0 = 0 := rfl
  rw [hs, executeAction_hold]
  exact ⟨rfl, rfl⟩

theorem runSteps_hold_fields (p : EnvParams) (n : ℕ) (s : EnvState) :
    (runSteps p (List.replicate n 0) s).balance = s.balance ∧
    (runSteps p (List.replicate n 0) s).trades_count = s.trades_count := by
  induction n generalizing s with
  | zero => exact ⟨rfl, rfl⟩
  | succ n ih =>
    rw [List.replicate_succ, runSteps_cons]
    obtain ⟨ihb, iht⟩ := ih (stepEnv p 0 s).1
    obtain ⟨hb, ht⟩ := stepEnv_hold_fields p s
    exact ⟨ihb.trans hb, iht.trans ht⟩

theorem executeAction_current_step (p : EnvParams) (a : ℤ) (s : EnvState) :
    (executeAction p a s).current_step = s.current_step := by
  rcases executeAction_cases p a s with he | ⟨s1, q, hs1, he⟩
  · rw [he]
  · rw [he]
    simp only
    rcases hs1 with rfl | rfl
    · rfl
    · exact closePosition_current_step _ _

/-! Claim theorems. -/

/-- C1: closing an open position at exit price `price` realizes a PnL of
`(price - entry)/entry * |position|` for a long and
`(entry - price)/entry * |position|` for a short, adds it to both `balance`
and the cumulative realized PnL `total_pnl`, appends exactly one trade
record, and zeroes both `position` and `entry_price`. -/
theorem close_position_contract (price : ℚ) (s : EnvState) (h : s.position ≠ 0) :
    (closePosition price s).balance = s.balance + realizedPnl price s ∧
    (closePosition price s).total_pnl = s.total_pnl + realizedPnl price s ∧
    (closePosition price s).trade_history = s.trade_history ++ [closeRecord price s] ∧
    (closePosition price s).position = 0 ∧
    (closePosition price s).entry_price = 0 ∧
    (0 < s.position →
      realizedPnl price s = (price - s.entry_price) / s.entry_price * |s.position|) ∧
    (s.position < 0 →
      realizedPnl price s = (s.entry_price - price) / s.entry_price * |s.position|) := by
  rw [closePosition_of_ne price s h]
  refine ⟨rfl, rfl, rfl, rfl, rfl, ?_, ?_⟩
  · intro hp
    rw [realizedPnl, if_pos hp]
  · intro hn
    rw [realizedPnl, if_neg (not_lt.mpr hn.le)]

/-- Witness for C1: closing a long of size `1/10` entered at 100 against exit
price 110. -/
theorem close_position_contract_witness :
    stC1.position ≠ 0 ∧
    (closePosition 110 stC1).balance = stC1.balance + realizedPnl 110 stC1 ∧
    (closePosition 110 stC1).position = 0 :=
  ⟨by norm_num [stC1],
   (close_position_contract 110 stC1 (by norm_num [stC1])).1,
   (close_position_contract 110 stC1 (by norm_num [stC1])).2.2.2.1⟩

/-- C2 counterexample: on the fixture `pC2` (4 candles, window 1, so
`max_steps = 2`), the very first `step` call runs at the last valid index
(`done` comes back `true`), yet a BUY there returns reward `999/10000 ≠ 0`:
the zero-reward guard `current_step >= len(data) - 1` does not cover the
last valid index. -/
theorem reward_at_last_valid_index_nonzero :
    (stepEnv pC2 1 (resetState pC2)).2.2 = true ∧
    (stepEnv pC2 1 (resetState pC2)).2.1 ≠ 0 := by
  norm_num [stepEnv, sanitizeAction, executeAction, calculateReward, closePosition,
    closeAt, maxSteps, pC2, resetState, mkCandle, abs_of_pos]

/-- C2 amended: the reward returned by `step` is exactly 0 whenever the
(pre-advance) step cursor sits at index `len(data) - 1` or beyond — for every
action and every position — which is strictly beyond the episode's last valid
index `len(data) - window_size - 2` whenever `window_size ≥ 1`; at the last
valid index itself the reward follows the ordinary formula and is in general
nonzero. -/
theorem reward_zero_only_past_data_end (p : EnvParams) (a : ℤ) (s : EnvState)
    (h : p.data.length - 1 ≤ s.current_step) :
    (stepEnv p a s).2.1 = 0 := by
  show calculateReward p (sanitizeAction a) (executeAction p (sanitizeAction a) s) = 0
  have hc : p.data.length - 1 ≤ (executeAction p (sanitizeAction a) s).current_step := by
    rw [executeAction_current_step]
    exact h
  simp [calculateReward, hc]

/-- Witness for the amended C2: a state whose cursor (5) is past the end of
the 4-candle series. -/
theorem reward_zero_only_past_data_end_witness :
    (stepEnv pW 1 stC1).2.1 = 0 :=
  reward_zero_only_past_data_end pW 1 stC1 (by norm_num [pW, stC1])

/-- C4: for every candle series and parameters with
`0 < max_position_size ≤ 1`, after any sequence of `step` calls from `reset`,
`|position| ≤ max_position_size`. -/
theorem position_bound (p : EnvParams) (acts : List ℤ)
    (h0 : 0 < p.max_position_size) (_h1 : p.max_position_size ≤ 1) :
    |(runSteps p acts (resetState p)).position| ≤ p.max_position_size := by
  have hpos := posOk_runSteps p acts (resetState p) (posOk_reset p)
  rcases hpos with ⟨hz, _⟩ | ⟨hm | hm, _⟩
  · rw [hz]
    simpa using h0.le
  · rw [hm, abs_of_pos h0]
  · rw [hm, abs_neg, abs_of_pos h0]

/-- Witness for C4: a BUY, SELL, HOLD episode on the fixture `pW`. -/
theorem position_bound_witness :
    |(runSteps pW [1, 2, 0] (resetState pW)).position| ≤ pW.max_position_size :=
  position_bound pW [1, 2, 0] (by norm_num [pW]) (by norm_num [pW])

/-- C5: in every state reachable from `reset` by arbitrary `step` calls,
`position = 0` implies `entry_price = 0`. -/
theorem entry_price_zero_when_flat (p : EnvParams) (acts : List ℤ)
    (h : (runSteps p acts (resetState p)).position = 0) :
    (runSteps p acts (resetState p)).entry_price = 0 := by
  have hpos := posOk_runSteps p acts (resetState p) (posOk_reset p)
  rcases hpos with ⟨_, he⟩ | ⟨hm | hm, hne⟩
  · exact he
  · rw [h] at hm
    exact absurd hm.symm hne
  · rw [h] at hm
    exact absurd (neg_eq_zero.mp hm.symm) hne

/-- Witness for C5: a one-step all-HOLD episode stays flat with zero entry
price. -/
theorem entry_price_zero_when_flat_witness :
    (runSteps pW [0] (resetState pW)).entry_price = 0 :=
  entry_price_zero_when_flat pW [0]
    (by norm_num [runSteps, stepEnv, sanitizeAction, executeAction, pW, resetState])

/-- C6: an all-HOLD episode leaves `balance = initial_balance` and
`trades_count = 0` after every step; and in general a `step` that does not
close a position (its trade history is unchanged) leaves `balance`
unchanged — balance never moves on unrealized price changes. -/
theorem hold_preserves_ledger :
    (∀ (p : EnvParams) (n : ℕ),
        (runSteps p (List.replicate n 0) (resetState p)).balance = p.initial_balance ∧
        (runSteps p (List.replicate n 0) (resetState p)).trades_count = 0) ∧
    ∀ (p : EnvParams) (a : ℤ) (s : EnvState),
      (stepEnv p a s).1.trade_history = s.trade_history →
      (stepEnv p a s).1.balance = s.balance := by
  constructor
  · intro p n
    simpa [resetState] using runSteps_hold_fields p n (resetState p)
  · intro p a s h
    rw [stepEnv_fst] at h ⊢
    simp only at h ⊢
    exact executeAction_balance_of_history p _ s h

/-- Witness for C6: two HOLD steps on the fixture `pW`, and one HOLD step
from the reset state leaving the balance untouched. -/
theorem hold_preserves_ledger_witness :
    ((runSteps pW (List.replicate 2 0) (resetState pW)).balance = pW.initial_balance ∧
     (runSteps pW (List.replicate 2 0) (resetState pW)).trades_count = 0) ∧
    (stepEnv pW 0 (resetState pW)).1.balance = (resetState pW).balance :=
  ⟨hold_preserves_ledger.1 pW 2,
   hold_preserves_ledger.2 pW 0 (resetState pW)
     (by norm_num [stepEnv, sanitizeAction, executeAction, pW, resetState])⟩

/-- C7 counterexample: construction succeeds (returns an environment rather
than failing) even when every parameter is invalid in the claim's sense —
`window_size = 0`, negative commission and slippage rates, a negative initial
balance and `max_position_size = 2 ∉ (0, 1]`.  `__init__` contains no
validation code at all. -/
theorem construction_never_fails_counterexample :
    (initEnv [] 0 (-1) (-1) (-5) 2).isSome = true := rfl

/-- C7 amended: construction never fails and never clamps — for every
parameter combination, valid or not, `__init__` succeeds and stores the
parameters exactly as given, with the freshly reset trading state. -/
theorem construction_accepts_all_parameters (data : List Candle) (w : ℕ)
    (c sl b m : ℚ) :
    initEnv data w c sl b m =
      some ({ data := data, window_size := w, commission_rate := c,
              slippage_rate := sl, initial_balance := b,
              max_position_size := m },
            resetState { data := data, window_size := w, commission_rate := c,
                         slippage_rate := sl, initial_balance := b,
                         max_position_size := m }) := rfl

/-- C9: a BUY applied when `position < max_position_size` always leaves
`position` exactly at `+max_position_size`, and a SELL applied when
`position > -max_position_size` always leaves it exactly at
`-max_position_size`: a non-no-op action fills straight to the cap. -/
theorem action_fills_to_cap (p : EnvParams) (s : EnvState) :
    (s.position < p.max_position_size →
      (executeAction p 1 s).position = p.max_position_size) ∧
    (-p.max_position_size < s.position →
      (executeAction p 2 s).position = -p.max_position_size) :=
  ⟨executeAction_buy_fill p s, executeAction_sell_fill p s⟩

/-- Witness for C9: BUY and SELL from the flat reset state on `pW` land at
`±max_position_size`. -/
theorem action_fills_to_cap_witness :
    (executeAction pW 1 (resetState pW)).position = pW.max_position_size ∧
    (executeAction pW 2 (resetState pW)).position = -pW.max_position_size :=
  ⟨(action_fills_to_cap pW (resetState pW)).1 (by norm_num [pW, resetState]),
   (action_fills_to_cap pW (resetState pW)).2 (by norm_num [pW, resetState])⟩

/-- C10: in every state reachable from `reset` by arbitrary `step` calls,
`balance = initial_balance + total_pnl`, and `total_pnl` is the sum of the
`pnl` fields of the recorded trades. -/
theorem balance_equals_initial_plus_pnl (p : EnvParams) (acts : List ℤ) :
    (runSteps p acts (resetState p)).balance =
      p.initial_balance + (runSteps p acts (resetState p)).total_pnl ∧
    (runSteps p acts (resetState p)).total_pnl =
      ((runSteps p acts (resetState p)).trade_history.map Trade.pnl).sum :=
  ledgerOk_runSteps p acts (resetState p) (ledgerOk_reset p)

theorem obsRows_eq_join (prev : Candle) (l : List Candle) (r : List ℝ)
    (h : obsRows prev l = some r) :
    r = (List.zipWith rowVals (prev :: l) l).flatten := by
  induction l generalizing prev r with
  | nil =>
    simp [obsRows] at h
    simp [h.symm]
  | cons curr rest ih =>
    by_cases hok : rowOk prev curr
    · rw [obsRows, if_pos hok] at h
      obtain ⟨tail, htail, rfl⟩ := Option.map_eq_some'.mp h
      simp [List.zipWith, ih curr tail htail]
    · rw [obsRows, if_neg hok] at h
      exact absurd h (by simp)

theorem obsRowsTotal_length (prev : Candle) (l : List Candle) :
    (obsRowsTotal prev l).length = 5 * l.length := by
  induction l generalizing prev with
  | nil => rfl
  | cons curr rest ih =>
    simp [obsRowsTotal, rowVals, ih curr]
    ring

theorem window_length_le (p : EnvParams) (s : EnvState) :
    (window p s).length ≤ p.window_size := by
  simp [window]

/-- C3 amended: in every successfully built observation whose window is
`c0 :: rest`, candle `i ≥ 1` contributes the five channel values
`rowVals`, i.e. the open and close channels both carry
`ln(close_i / close_{i-1})`, but the high channel carries
`ln(high_i / close_{i-1})` and the low channel `ln(low_i / close_{i-1})`
(not the close-to-close log return), and the volume channel carries
`(volume_i - volume_{i-1}) / volume_{i-1}`. -/
theorem obs_channel_structure (p : EnvParams) (s : EnvState) (c0 : Candle)
    (rest : List Candle) (l : List ℝ)
    (hw : window p s = c0 :: rest) (h : getObservation p s = some l) :
    l = rawHead c0 ++ (List.zipWith rowVals (c0 :: rest) rest).flatten ++
      [(s.position : ℝ), ((s.balance / p.initial_balance : ℚ) : ℝ)] := by
  unfold getObservation at h
  rw [hw] at h
  by_cases hlen : (c0 :: rest).length < p.window_size
  · rw [if_pos hlen] at h
    exact absurd h (by simp)
  · rw [if_neg hlen] at h
    obtain ⟨rows, hr, rfl⟩ := Option.map_eq_some'.mp h
    rw [obsRows_eq_join c0 rest rows hr]

/-- C3 counterexample: on the fixture `p3c`, whose second candle has
`high = 2` but `close = 1`, the built observation carries `log 2` in the high
channel (index 6) and `log 1 = 0` in the close channel (index 8): the four
price channels do NOT all carry the same close-to-close log return. -/
theorem obs_high_channel_differs :
    getObservation p3c (resetState p3c) = some obsList3 ∧
    obsList3.get? 6 ≠ obsList3.get? 8 := by
  constructor
  · norm_num [getObservation, window, obsRows, rowOk, rawHead, rowVals, obsList3,
      p3c, resetState, mkCandle, c31, Real.log_one]
  · norm_num [obsList3]

/-- Witness for the amended C3: the fixture observation decomposes exactly as
the theorem states. -/
theorem obs_channel_structure_witness :
    obsList3 = rawHead (mkCandle 1) ++
      (List.zipWith rowVals (mkCandle 1 :: [c31]) [c31]).flatten ++
      [((resetState p3c).position : ℝ),
       (((resetState p3c).balance / p3c.initial_balance : ℚ) : ℝ)] :=
  obs_channel_structure p3c (resetState p3c) (mkCandle 1) [c31] obsList3 rfl
    (by norm_num [getObservation, window, obsRows, rowOk, rawHead, rowVals, obsList3,
      p3c, resetState, mkCandle, c31, Real.log_one])

/-- C8 amended: building an observation never fails on zero or negative
close or volume values — numpy's log and division only emit RuntimeWarnings
and yield nan/inf entries while the array still builds.  Under the faithful
numpy semantics `getObservationNp`, construction succeeds exactly when the
window has its full length `window_size` (the only real failure mode is the
short-window IndexError), in particular for every window whose closes and
volumes are all strictly positive, and every built observation has length
`5 * window_size + 2`. -/
theorem obs_np_builds (p : EnvParams) (s : EnvState) :
    ((getObservationNp p s).isSome ↔ p.window_size ≤ (window p s).length) ∧
    ∀ l, getObservationNp p s = some l → l.length = 5 * p.window_size + 2 := by
  have hle := window_length_le p s
  by_cases hlt : (window p s).length < p.window_size
  · constructor
    · simp [getObservationNp, hlt]
    · intro l hl
      simp [getObservationNp, hlt] at hl
  · have hlen : (window p s).length = p.window_size := le_antisymm hle (not_lt.mp hlt)
    rcases hwin : window p s with _ | ⟨c0, rest⟩
    · rw [hwin] at hlen
      simp at hlen
      constructor
      · simp [getObservationNp, hwin, hlt]
      · intro l hl
        simp [getObservationNp, hwin, hlt] at hl
        obtain ⟨hw0, rfl⟩ := hl
        simp [← hlen]
    · rw [hwin] at hlen
      simp at hlen
      constructor
      · simp [getObservationNp, hwin, hlt]
      · intro l hl
        simp [getObservationNp, hwin, hlt] at hl
        obtain ⟨hwle, rfl⟩ := hl
        simp [rawHead, obsRowsTotal_length]
        omega

/-- C8 counterexample: the last candle of the window of fixture `p8c` has
volume 0 — a value the claim says must make the observation build fail with a
division or log domain error — yet the observation builds successfully: that
volume is used only as a numerator, never as a denominator or log argument. -/
theorem obs_zero_volume_still_builds :
    c81.volume = 0 ∧
    window p8c (resetState p8c) = [mkCandle 1, c81] ∧
    (getObservationNp p8c (resetState p8c)).isSome = true := by
  refine ⟨rfl, rfl, ?_⟩
  norm_num [getObservationNp, window, p8c, resetState, mkCandle, c81]

/-- Witness for the amended C8: on the all-positive fixture `p8w` the
observation builds (its window has full length 2) and its concrete value
`obsList8w` has length `5 * 2 + 2 = 12`. -/
theorem obs_np_builds_witness :
    ((getObservationNp p8w (resetState p8w)).isSome ↔
      p8w.window_size ≤ (window p8w (resetState p8w)).length) ∧
    obsList8w.length = 5 * p8w.window_size + 2 :=
  ⟨(obs_np_builds p8w (resetState p8w)).1,
   (obs_np_builds p8w (resetState p8w)).2 obsList8w
     (by norm_num [getObservationNp, window, obsRowsTotal, rowVals, rawHead,
        obsList8w, p8w, resetState, mkCandle])⟩
